import Mathlib

/-!
Verification of the cpy-cli copy engine front-end (`cli.js`).

The pure logic of `cli.js` is translated into executable Lean definitions:
filesystem access (`fs.statSync`), glob dynamism detection
(`globby.isDynamicPattern`) and `path.resolve` are external collaborators and
are modelled as function parameters (oracles); the string manipulation
(`replaceAll`, `includes`, `path.basename`, `path.dirname`, the trailing
separator regex) is translated concretely.  The parts of the engine that live
in the external `cpy` package (the update policy, the overwrite gate, the
dry-run scheduler) are modelled from the specification, and are marked as such
in their doc comments.
-/

/-- Result of `fs.statSync(filePath)` as observed by `cli.js`: either stats
(of which only `isDirectory()` is consulted) or a thrown error of any kind
(not-found, permission denied, symlink loop, …). -/
inductive StatResult where
  | ok : Bool → StatResult
  | error : String → StatResult
deriving DecidableEq

/-- Translation of `isDirectory` (cli.js lines 10-16): `fs.statSync` inside a
`try`; any thrown error is swallowed by the bare `catch` and the function
returns `false`. -/
def isDirectory (statSync : String → StatResult) (filePath : String) : Bool :=
  match statSync filePath with
  | .ok d => d
  | .error _ => false

/-- JavaScript `s.startsWith(pre)`. -/
def strStartsWith (s pre : String) : Bool :=
  pre.toList.isPrefixOf s.toList

/-- `haystack` contains `needle` as a contiguous substring
(JavaScript `String.prototype.includes`). -/
def includesFrom : List Char → List Char → Bool
  | _, [] => true
  | [], _ :: _ => false
  | c :: rest, t => t.isPrefixOf (c :: rest) || includesFrom rest t

/-- JavaScript `s.includes(t)`. -/
def strIncludes (s t : String) : Bool :=
  includesFrom s.toList t.toList

/-- Fuel-indexed worker for `replaceAll`: scan left to right, replacing each
non-overlapping occurrence of `pat` by `rep`. -/
def replaceAllAux : Nat → List Char → List Char → List Char → List Char
  | 0, _, _, _ => []
  | _ + 1, [], _, _ => []
  | fuel + 1, c :: rest, pat, rep =>
    if pat.isPrefixOf (c :: rest) then
      rep ++ replaceAllAux fuel ((c :: rest).drop pat.length) pat rep
    else
      c :: replaceAllAux fuel rest pat rep

/-- JavaScript `s.replaceAll(pat, rep)` for a non-empty string pattern
(every pattern used by `cli.js` is non-empty; the empty-pattern guard only
keeps the model total). -/
def replaceAll (s pat rep : String) : String :=
  if pat = "" then s
  else ⟨replaceAllAux s.toList.length s.toList pat.toList rep.toList⟩

/-- The rename placeholder token of cli.js line 88. -/
def stringTemplate : String := "\x7b\x7bbasename\x7d\x7d"

/-- Translation of the dispatch at cli.js line 89: template mode is entered
exactly when the `--rename` value is present and contains the placeholder
token (`rename?.includes(stringTemplate)`). -/
def isTemplateRename (rename : Option String) : Bool :=
  match rename with
  | some r => strIncludes r stringTemplate
  | none => false

/-- Translation of the template closure at cli.js lines 90-92: every
occurrence of the placeholder is replaced by the source's
`nameWithoutExtension`, and the original extension, when non-empty
(JavaScript truthiness of `source.extension`), is appended after a dot. -/
def applyRenameTemplate (rename nameWithoutExtension extension : String) : String :=
  replaceAll rename stringTemplate nameWithoutExtension
    ++ (if extension = "" then "" else "." ++ extension)

/-- Split a character list on `'/'` (segments, possibly empty). -/
def splitSlash : List Char → List (List Char)
  | [] => [[]]
  | c :: rest =>
    let r := splitSlash rest
    if c = '/' then [] :: r
    else
      match r with
      | h :: t => (c :: h) :: t
      | [] => [[c]]

/-- Node's `path.posix.basename` (no extension argument): trailing separators
are ignored and the last non-empty segment is returned. -/
def posixBasename (p : String) : String :=
  match ((splitSlash p.toList).filter (fun s => s ≠ [])).getLast? with
  | some seg => ⟨seg⟩
  | none => ""

/-- Index of the last `'/'` in a character list, if any. -/
def lastSlashIndex : List Char → Option Nat
  | [] => none
  | c :: rest =>
    match lastSlashIndex rest with
    | some i => some (i + 1)
    | none => if c = '/' then some 0 else none

/-- Node's `path.posix.dirname`: trailing separators are skipped, the string
up to the last remaining separator is returned, with the root special
cases. -/
def posixDirname (p : String) : String :=
  if p = "" then "."
  else
    let cs := p.toList
    let hasRoot := cs.head? = some '/'
    let t := (cs.reverse.dropWhile (fun c => c = '/')).reverse
    match lastSlashIndex t with
    | some i =>
      if 1 ≤ i then (if hasRoot ∧ i = 1 then "//" else ⟨cs.take i⟩)
      else (if hasRoot then "/" else ".")
    | none => if hasRoot then "/" else "."

/-- Translation of the regex `/[\\/]$/` at cli.js line 100: the string ends
with a forward or backward slash. -/
def hasTrailingSep (s : String) : Bool :=
  match s.toList.getLast? with
  | some c => c = '/' || c = '\\'
  | none => false

/-- The possible states of `cli.flags.rename` in `cli.js`:
the raw CLI value (a string literal or absent), the template closure
installed at lines 90-92, or the literal-filename closure installed by the
single-file shortcut at lines 111-113. -/
inductive RenameRule where
  | fromFlag : Option String → RenameRule
  | templateFn : String → RenameRule
  | literalFn : String → RenameRule
deriving DecidableEq

/-- The flag record produced by the argument parser for `cli.js`.
`update` records whether `--update` was present on the command line (the
parser collects unknown flags as well); note that the flag *definitions* at
cli.js lines 52-83 declare no `update` flag. -/
structure CliFlags where
  overwrite : Bool
  cwd : String
  base : Option String
  rename : RenameRule
  dot : Bool
  flat : Bool
  dryRun : Bool
  concurrency : Nat
  update : Bool
deriving DecidableEq

/-- Default of the `overwrite` flag (cli.js lines 53-56). -/
def overwriteFlagDefault : Bool := true

/-- Default of the `dryRun` flag (cli.js lines 75-78). -/
def dryRunFlagDefault : Bool := false

/-- External collaborators used by the single-file shortcut detection:
the working directory, the platform test of cli.js line 101, globby's
`isDynamicPattern`, `fs.statSync` and `path.resolve`. -/
structure CliContext where
  cwd : String
  win32 : Bool
  isDynamic : String → Bool
  statSync : String → StatResult
  resolve : String → String → String

/-- Translation of `sourcePatternForDynamicCheck` (cli.js line 101): on
Windows, a single source pattern has its backslashes normalised to forward
slashes before the dynamic-glob check. -/
def dynCheckPattern (ctx : CliContext) (sourcePatterns : List String) : String :=
  if sourcePatterns.length = 1 ∧ ctx.win32 then
    replaceAll (sourcePatterns.headD "") "\\" "/"
  else sourcePatterns.headD ""

/-- Translation of `sourcePatterns` (cli.js line 98): the input list after the
destination was popped, with negated patterns removed. -/
def sourcePatternsOf (inputs : List String) : List String :=
  inputs.dropLast.filter (fun p => !(strStartsWith p "!"))

/-- Translation of `isFileToFileCopy` (cli.js lines 102-107).  `inputs` is the
full positional-argument list; the destination is its last element
(`cli.input.pop()` at line 97). -/
def isFileToFileCopy (ctx : CliContext) (inputs : List String) : Bool :=
  let destination := inputs.getLast?
  let sourcePatterns := sourcePatternsOf inputs
  let hasDestination := destination.isSome
  let hasTrailingSeparator := hasDestination && hasTrailingSep (destination.getD "")
  sourcePatterns.length == 1
    && hasDestination
    && !(ctx.isDynamic (dynCheckPattern ctx sourcePatterns))
    && !(isDirectory ctx.statSync (ctx.resolve ctx.cwd (sourcePatterns.headD "")))
    && !hasTrailingSeparator
    && !(isDirectory ctx.statSync (ctx.resolve ctx.cwd (destination.getD "")))

/-- Translation of the reclassification block (cli.js lines 109-117): when
`isFileToFileCopy` holds, the rename rule becomes a literal rename to the
destination's basename, `flat` is forced on, and the destination becomes the
original destination's parent directory.  Returns the updated flags and the
effective destination. -/
def shortcutApply (ctx : CliContext) (inputs : List String) (flags : CliFlags) :
    CliFlags × Option String :=
  let destination := inputs.getLast?
  if isFileToFileCopy ctx inputs then
    match destination with
    | some d =>
      ({ flags with rename := .literalFn (posixBasename d), flat := true },
        some (posixDirname d))
    | none => (flags, none)
  else (flags, destination)

/-- The options record handed to the `cpy` engine.  The `update` field is what
the engine reads as `options.update`. -/
structure CpyOptions where
  cwd : String
  base : Option String
  rename : RenameRule
  overwrite : Bool
  dot : Bool
  flat : Bool
  concurrency : Nat
  dryRun : Bool
  update : Bool
deriving DecidableEq

/-- Translation of the options object built at cli.js lines 119-133.  That
object literal has no `update` key, so the engine observes
`options.update === undefined`, i.e. update mode disabled — regardless of
whether `--update` was given. -/
def buildCpyOptions (flags : CliFlags) : CpyOptions :=
  { cwd := flags.cwd
    base := flags.base
    rename := flags.rename
    overwrite := flags.overwrite
    dot := flags.dot
    flat := flags.flat
    concurrency := flags.concurrency
    dryRun := flags.dryRun
    update := false }

/-- File metadata consulted by the update policy: modification time and
size. -/
structure FileMeta where
  mtime : Int
  size : Nat
deriving DecidableEq

/-- Modelled from the spec: the update policy `shouldCopy(sourceMeta,
destinationMeta)` of the external `cpy` engine (spec §4.4) — proceed when the
destination does not exist, when the source modification time is strictly
newer, or when the times are equal and the sizes differ; otherwise skip. -/
def shouldCopy (sourceMeta : FileMeta) (destinationMeta : Option FileMeta) : Bool :=
  match destinationMeta with
  | none => true
  | some d =>
    decide (d.mtime < sourceMeta.mtime)
      || (decide (sourceMeta.mtime = d.mtime) && decide (sourceMeta.size ≠ d.size))

/-- One resolved copy task: a matched source with its computed destination and
the metadata the update policy consults. -/
structure CopyTask where
  sourcePath : String
  destinationPath : String
  sourceMeta : FileMeta
  destinationMeta : Option FileMeta
deriving DecidableEq

/-- Modelled from the spec: the update gate of the engine (spec §4.4) — the
update policy is consulted only when update mode is enabled; otherwise it is
bypassed (every task proceeds to the copy step, where the overwrite policy
governs). -/
def wouldCopy (update : Bool) (t : CopyTask) : Bool :=
  if update then shouldCopy t.sourceMeta t.destinationMeta else true

/-- Observable outcome of one engine run: the per-file progress events fired
through `onProgress`, and the copies actually performed on the filesystem. -/
structure EngineRun where
  progressEvents : List (String × String)
  performedCopies : List (String × String)
deriving DecidableEq

/-- Modelled from the spec: the dry-run behaviour of the external `cpy`
scheduler (spec §4.6, §5) — tasks are processed in match order, a task
produces a progress event exactly when it passes the update gate, and in
dry-run mode no byte copy is performed. -/
def engineRun (update dryRun : Bool) (tasks : List CopyTask) : EngineRun :=
  let proceeding := tasks.filter (wouldCopy update)
  { progressEvents := proceeding.map (fun t => (t.sourcePath, t.destinationPath))
    performedCopies :=
      if dryRun then []
      else proceeding.map (fun t => (t.sourcePath, t.destinationPath)) }

/-- Translation of the `onProgress` hook (cli.js lines 128-132): progress
records are pushed onto `copyFiles` only when `--dry-run` is set. -/
def cliCopyFiles (dryRun : Bool) (progressEvents : List (String × String)) :
    List (String × String) :=
  if dryRun then progressEvents else []

/-- Translation of the dry-run output loop (cli.js lines 140-144): when
`--dry-run` is set, one line per accumulated record, in order, formatted as
`relative(processCwd, source) → relative(processCwd, destination)`; nothing
is printed otherwise.  `relative` stands for Node's `path.relative` and
`processCwd` for `process.cwd()`. -/
def cliStdout (relative : String → String → String) (processCwd : String)
    (dryRun : Bool) (progressEvents : List (String × String)) : List String :=
  if dryRun then
    (cliCopyFiles dryRun progressEvents).map
      (fun e => relative processCwd e.1 ++ " → " ++ relative processCwd e.2)
  else []

/-- Translation of the no-match check (cli.js lines 135-138): when the engine
returned an empty file list, a message is printed to the error stream and the
process exits with code 1; otherwise nothing happens. -/
def noMatchOutcome (files : List String) : Option (String × Nat) :=
  if files.length = 0 then some ("No files matched the given patterns", 1)
  else none

/-- A JavaScript error as observed by the catch block: its `name` and
`message`. -/
structure JsError where
  name : String
  message : String
deriving DecidableEq

/-- What the catch block does with an error: report it (stderr lines and exit
code) or rethrow it unmodified. -/
inductive ErrorDisposition where
  | reported : List String → Nat → ErrorDisposition
  | rethrown : JsError → ErrorDisposition
deriving DecidableEq

/-- Translation of the catch block (cli.js lines 145-152): an error whose
`name` is `CpyError` is reported as a single `console.error(error.message)`
line with exit code 1; any other error is rethrown unmodified. -/
def handleError (e : JsError) : ErrorDisposition :=
  if e.name = "CpyError" then .reported [e.message] 1 else .rethrown e

/-- Failure of the byte-copy primitive relevant to the overwrite gate. -/
inductive CopyError where
  | alreadyExists : CopyError
deriving DecidableEq

/-- Modelled from the spec: the byte-copy primitive of the external `cpy`
engine with its overwrite gate (spec §4.6, §8) — an existing destination with
overwrite disabled fails with `AlreadyExistsError`; otherwise the destination
receives the source's content. -/
def performCopy (overwrite : Bool) (sourceContent : String)
    (destContent : Option String) : Except CopyError String :=
  match destContent with
  | none => .ok sourceContent
  | some _ => if overwrite then .ok sourceContent else .error .alreadyExists

/-- Destination content after `performCopy`: the new content on success, the
previous content (unchanged) on failure. -/
def destAfterCopy (overwrite : Bool) (sourceContent : String)
    (destContent : Option String) : Option String :=
  match performCopy overwrite sourceContent destContent with
  | .ok c => some c
  | .error _ => destContent

/-- A concrete collaborator environment for evaluating the shortcut detector:
no dynamic patterns, a filesystem where every stat fails with not-found, and
naive path resolution. -/
def sampleCtx : CliContext :=
  ⟨"/tmp", false, fun _ => false, fun _ => .error "ENOENT", fun c p => c ++ "/" ++ p⟩

/-- A concrete flag record with the parser defaults. -/
def sampleFlags : CliFlags :=
  ⟨true, "/tmp", none, .fromFlag none, false, false, false, 2, false⟩

/-- C1: the claim says `--update` enables update-policy gating; on the code,
the options object built at cli.js lines 119-133 carries no `update` key, so
the engine's update option is `false` for every flag record — even when
`--update` was given — and the update gate passes every task through to the
overwrite policy.  This contradicts the spec (§6) and the repository's own
update tests. -/
theorem updateOptionNeverForwarded (flags : CliFlags) (t : CopyTask) :
    (buildCpyOptions flags).update = false
    ∧ wouldCopy (buildCpyOptions flags).update t = true :=
  ⟨rfl, rfl⟩

/-- C4: the update policy proceeds exactly when the destination is missing,
the source modification time is strictly newer, or the times are equal and
the sizes differ; with equal times and equal sizes it does not proceed. -/
theorem updatePolicy_shouldCopy_iff (s d : FileMeta) :
    shouldCopy s none = true
    ∧ (shouldCopy s (some d) = true ↔
        (d.mtime < s.mtime ∨ (s.mtime = d.mtime ∧ s.size ≠ d.size)))
    ∧ (s.mtime = d.mtime → s.size = d.size → shouldCopy s (some d) = false) := by
  refine ⟨rfl, ?_, ?_⟩
  · simp [shouldCopy]
  · intro h1 h2
    simp [shouldCopy, h1, h2]

/-- Witness for C4: with equal modification times and equal sizes the policy
skips. -/
theorem updatePolicy_shouldCopy_iff_witness :
    ((5 : Int) = (5 : Int)) ∧ ((4 : Nat) = (4 : Nat))
    ∧ shouldCopy ⟨5, 4⟩ (some ⟨5, 4⟩) = false :=
  ⟨rfl, rfl, (updatePolicy_shouldCopy_iff ⟨5, 4⟩ ⟨5, 4⟩).2.2 rfl rfl⟩

/-- C5: a rename value containing the placeholder triggers template mode
(anything else is literal mode); every placeholder occurrence is substituted
with the source's name without extension and the original extension is
appended after a dot: `hi-\x7b\x7bbasename\x7d\x7d` on `hello.js` gives
`hi-hello.js`, and `\x7b\x7bbasename\x7d\x7d-copy-\x7b\x7bbasename\x7d\x7d`
on `hello.js` gives `hello-copy-hello.js`. -/
theorem renameTemplate_examples :
    applyRenameTemplate "hi-\x7b\x7bbasename\x7d\x7d" "hello" "js" = "hi-hello.js"
    ∧ applyRenameTemplate "\x7b\x7bbasename\x7d\x7d-copy-\x7b\x7bbasename\x7d\x7d"
        "hello" "js" = "hello-copy-hello.js"
    ∧ isTemplateRename (some "hi-\x7b\x7bbasename\x7d\x7d") = true
    ∧ isTemplateRename (some "hi.js") = false
    ∧ isTemplateRename none = false :=
  ⟨by decide, by decide, by decide, by decide, by decide⟩

/-- C6: with overwrite disabled and an existing destination the copy fails
with `AlreadyExistsError` and the destination content is unchanged; with
overwrite enabled the destination receives the source content; the CLI's
`overwrite` flag defaults to `true` and is forwarded to the engine
unchanged. -/
theorem overwriteGate_content (a b : String) (d : Option String) (flags : CliFlags) :
    performCopy false a (some b) = .error CopyError.alreadyExists
    ∧ destAfterCopy false a (some b) = some b
    ∧ destAfterCopy true a d = some a
    ∧ overwriteFlagDefault = true
    ∧ (buildCpyOptions flags).overwrite = flags.overwrite := by
  refine ⟨rfl, rfl, ?_, rfl, rfl⟩
  cases d <;> rfl

/-- C7: when the engine reports zero matched files, the CLI prints a
human-readable message to the error stream and exits with a non-zero code. -/
theorem noMatch_exit (files : List String) (h : files = []) :
    ∃ msg code, noMatchOutcome files = some (msg, code)
      ∧ msg = "No files matched the given patterns" ∧ code ≠ 0 := by
  subst h
  exact ⟨_, _, rfl, rfl, by decide⟩

/-- Witness for C7: the empty match set produces the failure outcome. -/
theorem noMatch_exit_witness :
    ([] : List String) = []
    ∧ ∃ msg code, noMatchOutcome [] = some (msg, code)
      ∧ msg = "No files matched the given patterns" ∧ code ≠ 0 :=
  ⟨rfl, noMatch_exit [] rfl⟩

/-- C8: an error named `CpyError` (the engine's user-facing error kind) is
reported as a single stderr line with exit code 1; any other error is
rethrown unmodified. -/
theorem errorHandling_dispatch (e : JsError) :
    (e.name = "CpyError" → handleError e = .reported [e.message] 1 ∧ (1 : Nat) ≠ 0)
    ∧ (e.name ≠ "CpyError" → handleError e = .rethrown e) := by
  constructor
  · intro h
    exact ⟨by simp [handleError, h], by decide⟩
  · intro h
    simp [handleError, h]

/-- Witness for C8: a `CpyError` is reported, a `TypeError` is rethrown. -/
theorem errorHandling_dispatch_witness :
    handleError ⟨"CpyError", "No files exist"⟩ =
      ErrorDisposition.reported ["No files exist"] 1
    ∧ handleError ⟨"TypeError", "x is not a function"⟩ =
      ErrorDisposition.rethrown ⟨"TypeError", "x is not a function"⟩ :=
  ⟨((errorHandling_dispatch ⟨"CpyError", "No files exist"⟩).1 rfl).1,
    (errorHandling_dispatch ⟨"TypeError", "x is not a function"⟩).2 (by decide)⟩

/-- C9: without `--dry-run`, `onProgress` accumulates nothing and the output
loop prints nothing, so standard output stays empty on a successful run. -/
theorem noStdout_withoutDryRun (relative : String → String → String)
    (processCwd : String) (events : List (String × String)) :
    cliStdout relative processCwd false events = []
    ∧ cliCopyFiles false events = [] :=
  ⟨rfl, rfl⟩

/-- C10: `isDirectory` is total — a stat failure of any kind yields `false`
(the path is treated as not-a-directory), and it answers `true` exactly when
stat succeeds with directory stats. -/
theorem isDirectory_total_on_error (statSync : String → StatResult) (p : String) :
    (∀ e, statSync p = .error e → isDirectory statSync p = false)
    ∧ (isDirectory statSync p = true ↔ statSync p = .ok true) := by
  constructor
  · intro e h
    simp [isDirectory, h]
  · cases h : statSync p with
    | ok d => cases d <;> simp [isDirectory, h]
    | error e => simp [isDirectory, h]

/-- Witness for C10: a permission failure classifies the path as
not-a-directory. -/
theorem isDirectory_total_on_error_witness :
    (fun _ => StatResult.error "EACCES") "/mnt/broken" = StatResult.error "EACCES"
    ∧ isDirectory (fun _ => StatResult.error "EACCES") "/mnt/broken" = false :=
  ⟨rfl,
    (isDirectory_total_on_error (fun _ => StatResult.error "EACCES") "/mnt/broken").1
      "EACCES" rfl⟩

/-- C3: in dry-run mode the printed lines are exactly one formatted
`source → destination` line per task passing the update gate, in task (match)
order, no copy is performed, and when the update policy lets nothing through
the output is empty. -/
theorem dryRunOutput_lines (update : Bool) (tasks : List CopyTask)
    (relative : String → String → String) (processCwd : String) :
    cliStdout relative processCwd true (engineRun update true tasks).progressEvents
      = (tasks.filter (wouldCopy update)).map
          (fun t => relative processCwd t.sourcePath ++ " → "
            ++ relative processCwd t.destinationPath)
    ∧ (engineRun update true tasks).performedCopies = []
    ∧ (tasks.filter (wouldCopy update) = [] →
        cliStdout relative processCwd true
          (engineRun update true tasks).progressEvents = []) := by
  refine ⟨?_, rfl, ?_⟩
  · simp [cliStdout, cliCopyFiles, engineRun, List.map_map, Function.comp]
  · intro h
    simp [cliStdout, cliCopyFiles, engineRun, h]

/-- Witness for C3: a single up-to-date task (equal times, equal sizes) is
skipped by the update policy and the dry run prints nothing. -/
theorem dryRunOutput_lines_witness :
    ([⟨"a", "b", ⟨5, 4⟩, some ⟨5, 4⟩⟩] : List CopyTask).filter (wouldCopy true) = []
    ∧ cliStdout (fun _ p => p) "" true
        (engineRun true true [⟨"a", "b", ⟨5, 4⟩, some ⟨5, 4⟩⟩]).progressEvents = [] :=
  ⟨by decide,
    (dryRunOutput_lines true [⟨"a", "b", ⟨5, 4⟩, some ⟨5, 4⟩⟩]
      (fun _ p => p) "").2.2 (by decide)⟩

/-- C2: the invocation is reclassified as a single file-to-file copy exactly
when there is one non-negated source argument, a destination is present, the
source is not a dynamic glob, the source does not resolve to an existing
directory, the destination has no trailing separator, and the destination
does not resolve to an existing directory; the reclassification installs a
literal rename to the destination's basename, forces flatten on, and replaces
the destination by its parent directory. -/
theorem singleFileShortcut_characterization (ctx : CliContext) (inputs : List String)
    (flags : CliFlags) :
    (isFileToFileCopy ctx inputs = true ↔
      ∃ d, inputs.getLast? = some d
        ∧ (sourcePatternsOf inputs).length = 1
        ∧ ctx.isDynamic (dynCheckPattern ctx (sourcePatternsOf inputs)) = false
        ∧ isDirectory ctx.statSync
            (ctx.resolve ctx.cwd ((sourcePatternsOf inputs).headD "")) = false
        ∧ hasTrailingSep d = false
        ∧ isDirectory ctx.statSync (ctx.resolve ctx.cwd d) = false)
    ∧ (∀ d, inputs.getLast? = some d → isFileToFileCopy ctx inputs = true →
        (shortcutApply ctx inputs flags).1.rename = RenameRule.literalFn (posixBasename d)
        ∧ (shortcutApply ctx inputs flags).1.flat = true
        ∧ (shortcutApply ctx inputs flags).2 = some (posixDirname d)) := by
  constructor
  · cases h : inputs.getLast? with
    | none => simp [isFileToFileCopy, h]
    | some d =>
      simp only [isFileToFileCopy, h, Option.isSome_some, Option.getD_some,
        Bool.and_eq_true, Bool.not_eq_true', beq_iff_eq, Bool.true_and,
        Option.some.injEq, and_true, true_and]
      constructor
      · intro hh
        refine ⟨d, rfl, ?_, ?_, ?_, ?_, ?_⟩ <;> tauto
      · rintro ⟨d2, hdd, h1, h2, h3, h4, h5⟩
        subst hdd
        tauto
  · intro d hd hcopy
    simp [shortcutApply, hd, hcopy]

/-- Witness for C2: `cpy source.txt sub/target.txt` in an environment with no
existing directories is reclassified; the rename rule is the literal
`target.txt`, flatten is on, and the destination becomes `sub`. -/
theorem singleFileShortcut_characterization_witness :
    (["source.txt", "sub/target.txt"] : List String).getLast? = some "sub/target.txt"
    ∧ isFileToFileCopy sampleCtx ["source.txt", "sub/target.txt"] = true
    ∧ (shortcutApply sampleCtx ["source.txt", "sub/target.txt"] sampleFlags).1.rename
        = RenameRule.literalFn (posixBasename "sub/target.txt")
    ∧ (shortcutApply sampleCtx ["source.txt", "sub/target.txt"] sampleFlags).1.flat = true
    ∧ (shortcutApply sampleCtx ["source.txt", "sub/target.txt"] sampleFlags).2
        = some (posixDirname "sub/target.txt")
    ∧ posixBasename "sub/target.txt" = "target.txt"
    ∧ posixDirname "sub/target.txt" = "sub" := by
  have h := (singleFileShortcut_characterization sampleCtx
    ["source.txt", "sub/target.txt"] sampleFlags).2 "sub/target.txt" rfl (by decide)
  exact ⟨rfl, by decide, h.1, h.2.1, h.2.2, by decide, by decide⟩
